import Mathlib

/-!
Shallow embedding of the ship-logbook fleet registry (`boat_ui.py`) and proofs
about its specified behaviour.

The embedding covers the vessel class hierarchy (`Boat`, `CargoBoat`,
`MilitaryBoat`), the serialization codec (`to_dict` and the reconstruction
dispatch of `load_from_file`), and the fleet registry operations (`add_boat`,
`remove_boat`, `transfer_boat`, `sort_boats`, `generate_status_report`,
`load_from_file`).

Modelling conventions, stated once here:
* Python objects are identified by identity; vessel and fleet objects in the
  multi-registry model are therefore identified by `Nat` ids, and list
  membership / `list.remove` use identity equality, as Python's default
  `==` does for these classes (none of them overrides `__eq__`).
* Python `float` fields (`cargo_capacity`, `weapon_count`) are modelled as `ℚ`.
* Wall-clock timestamps (`datetime.now()`) are abstracted away: a log entry is
  modelled by its message text (the part after the `"[timestamp] "` stamp),
  which is the only part any property here depends on.
* `datetime.fromtimestamp(t).date()` is modelled at UTC (the local clock is
  process environment, not program logic).
-/

namespace ShipLogbook

/-- Code-point lexicographic `≤` on character lists; this is exactly Python's
string comparison, used by `list.sort(key=lambda boat: boat.name)`. -/
def charListLe : List Char → List Char → Bool
  | [], _ => true
  | _ :: _, [] => false
  | a :: as, b :: bs =>
    if a.toNat < b.toNat then true
    else if b.toNat < a.toNat then false
    else charListLe as bs

/-- Python string `<=` on `String`s (code-point lexicographic order). -/
def pyStrLe (a b : String) : Bool :=
  charListLe a.data b.data

/-- Substring test on character lists: does `hay` contain `needle`
contiguously? -/
def subOf (needle : List Char) : List Char → Bool
  | [] => needle.isEmpty
  | c :: t => needle.isPrefixOf (c :: t) || subOf needle t

/-- `strContains hay needle` holds when `needle` occurs contiguously in
`hay`, i.e. Python's `needle in hay`. -/
def strContains (hay needle : String) : Bool :=
  subOf needle.data hay.data

/-- Python's `not s.strip()`: true when `s` is empty or whitespace-only. -/
def isBlank (s : String) : Bool :=
  s.data.all Char.isWhitespace

/-- A stored `launch_date` after construction: either a `datetime.date` value
(year, month, day) or a raw string kept as-is (the constructor does not parse
strings). -/
inductive DateVal
  | date (y m d : Int)
  | str (s : String)
deriving DecidableEq

/-- Zero-pad an integer to two digits, as in Python's `%02d`. -/
def pad2 (n : Int) : String :=
  if n < 10 then "0" ++ toString n else toString n

/-- Zero-pad an integer to four digits, as in Python's `%04d`. -/
def pad4 (n : Int) : String :=
  if n < 10 then "000" ++ toString n
  else if n < 100 then "00" ++ toString n
  else if n < 1000 then "0" ++ toString n
  else toString n

/-- Python's `str(launch_date)`: ISO `YYYY-MM-DD` for a date value, the string
itself for a stored string. -/
def dateToStr : DateVal → String
  | .date y m d => pad4 y ++ "-" ++ pad2 m ++ "-" ++ pad2 d
  | .str s => s

/-- Civil date from a count of days since the Unix epoch (Howard Hinnant's
`civil_from_days` algorithm, as used by standard date libraries). -/
def civilFromDays (z0 : Int) : Int × Int × Int :=
  let z := z0 + 719468
  let era := Int.fdiv z 146097
  let doe := z - era * 146097
  let yoe := Int.fdiv (doe - Int.fdiv doe 1460 + Int.fdiv doe 36524 - Int.fdiv doe 146096) 365
  let y := yoe + era * 400
  let doy := doe - (365 * yoe + Int.fdiv yoe 4 - Int.fdiv yoe 100)
  let mp := Int.fdiv (5 * doy + 2) 153
  let d := doy - Int.fdiv (153 * mp + 2) 5 + 1
  let m := mp + (if mp < 10 then 3 else -9)
  (y + (if m ≤ 2 then 1 else 0), m, d)

/-- `datetime.fromtimestamp(t).date()` for an integer timestamp, at UTC. -/
def timestampToDate (t : Int) : DateVal :=
  let c := civilFromDays (Int.fdiv t 86400)
  .date c.1 c.2.1 c.2.2

/-- The `launch_date` argument accepted by `Boat.__init__`: a date value, a
numeric timestamp, a string, or `None`. -/
inductive LaunchInput
  | dateVal (y m d : Int)
  | num (t : Int)
  | strVal (s : String)
  | noneVal
deriving DecidableEq

/-- Variant payload distinguishing the three vessel classes. -/
inductive Variant
  | base
  | cargo (cargo_capacity : ℚ)
  | military (weapon_count : ℚ) (is_authorised_by_gov : Bool)
deriving DecidableEq

/-- A vessel object: the attribute set shared by `Boat` and its subclasses,
plus the variant payload. `current_fleet` and `fleet_history` hold fleet ids. -/
structure Boat where
  name : String
  launch_date : DateVal
  home_port : String
  flag : String
  current_fleet : Option Nat
  fleet_history : List Nat
  current_position : Option String
  position_logs : List String
  variant : Variant
deriving DecidableEq

/-- `Boat.__init__`: validates name, home port, flag and launch date, converts
a numeric timestamp to a date, stores a string launch date as-is, and
initializes an unbound vessel with empty histories. The `isinstance(x, str)`
checks are subsumed by static typing of the embedded inputs. -/
def initBase (name : String) (launch : LaunchInput) (home_port flag : String) :
    Except String Boat :=
  if isBlank name then .error "Ship name must be a non-empty string."
  else if isBlank home_port then .error "Home port must be a non-empty string."
  else if isBlank flag then .error "Flag must be a non-empty string."
  else match launch with
    | .noneVal => .error "Launch date cannot be empty. Please input a date."
    | .num t => .ok ⟨name, timestampToDate t, home_port, flag, none, [], none, [], .base⟩
    | .dateVal y m d => .ok ⟨name, .date y m d, home_port, flag, none, [], none, [], .base⟩
    | .strVal s => .ok ⟨name, .str s, home_port, flag, none, [], none, [], .base⟩

/-- `CargoBoat.__init__`: base validation, then rejects negative
`cargo_capacity` (the numeric `isinstance` check is subsumed by typing). -/
def initCargo (name : String) (launch : LaunchInput) (home_port flag : String)
    (cargo_capacity : ℚ) : Except String Boat :=
  (initBase name launch home_port flag).bind fun b =>
    if cargo_capacity < 0 then
      .error "Cargo capacity must be a positive value greater than zero."
    else .ok { b with variant := .cargo cargo_capacity }

/-- `MilitaryBoat.__init__`: base validation, then rejects negative
`weapon_count`; the boolean check on `is_authorised_by_gov` is subsumed by
typing. -/
def initMilitary (name : String) (launch : LaunchInput) (home_port flag : String)
    (weapon_count : ℚ) (is_authorised_by_gov : Bool) : Except String Boat :=
  (initBase name launch home_port flag).bind fun b =>
    if weapon_count < 0 then
      .error "Weapon count must be zero or a positive value."
    else .ok { b with variant := .military weapon_count is_authorised_by_gov }

/-- One constructor call for any of the three vessel classes. -/
inductive CtorInput
  | base (name : String) (launch : LaunchInput) (home_port flag : String)
  | cargo (name : String) (launch : LaunchInput) (home_port flag : String)
      (cargo_capacity : ℚ)
  | military (name : String) (launch : LaunchInput) (home_port flag : String)
      (weapon_count : ℚ) (is_authorised_by_gov : Bool)

/-- Dispatch a constructor call to the matching class. -/
def construct : CtorInput → Except String Boat
  | .base n l hp fl => initBase n l hp fl
  | .cargo n l hp fl c => initCargo n l hp fl c
  | .military n l hp fl w a => initMilitary n l hp fl w a

/-- The serialized vessel document: the keys written by `to_dict`, with the
variant-specific keys optional (their presence is the type discriminant). -/
structure Doc where
  name : String
  launch_date : String
  home_port : String
  flag : String
  current_position : Option String
  position_logs : List String
  cargo_capacity : Option ℚ
  weapon_count : Option ℚ
  is_authorised_by_gov : Option Bool
deriving DecidableEq

/-- `to_dict` (including the subclass overrides): serializes the shared keys,
stringifies `launch_date`, and adds the variant-specific keys. -/
def to_dict (b : Boat) : Doc :=
  { name := b.name
    launch_date := dateToStr b.launch_date
    home_port := b.home_port
    flag := b.flag
    current_position := b.current_position
    position_logs := b.position_logs
    cargo_capacity := match b.variant with | .cargo c => some c | _ => none
    weapon_count := match b.variant with | .military w _ => some w | _ => none
    is_authorised_by_gov := match b.variant with | .military _ a => some a | _ => none }

/-- The position-restore step of `load_from_file`: copies `current_position`
and `position_logs` from the document onto the reconstructed vessel. -/
def restorePos (d : Doc) (b : Boat) : Boat :=
  { b with current_position := d.current_position, position_logs := d.position_logs }

/-- The reconstruction dispatch of `load_from_file`: presence of
`cargo_capacity` selects `CargoBoat`, else presence of `weapon_count` selects
`MilitaryBoat` (reading `is_authorised_by_gov`, a `KeyError` if absent), else
the base `Boat`; then position data is restored. -/
def fromDoc (d : Doc) : Except String Boat :=
  match d.cargo_capacity with
  | some cap =>
      (initCargo d.name (.strVal d.launch_date) d.home_port d.flag cap).map (restorePos d)
  | none =>
      match d.weapon_count with
      | some w =>
          match d.is_authorised_by_gov with
          | some auth =>
              (initMilitary d.name (.strVal d.launch_date) d.home_port d.flag w auth).map
                (restorePos d)
          | none => .error "KeyError: is_authorised_by_gov"
      | none =>
          (initBase d.name (.strVal d.launch_date) d.home_port d.flag).map (restorePos d)

/-- A fleet registry's own state: the vessel list and the audit log. -/
structure Fleet where
  boats : List Boat
  logs : List String
deriving DecidableEq

/-- `isinstance(b, CargoBoat)`. -/
def isCargo (b : Boat) : Bool :=
  match b.variant with | .cargo _ => true | _ => false

/-- `isinstance(b, MilitaryBoat)`. -/
def isMilitary (b : Boat) : Bool :=
  match b.variant with | .military _ _ => true | _ => false

/-- `sum(1 for b in boats if isinstance(b, CargoBoat))`. -/
def cargoCount (bs : List Boat) : Nat :=
  bs.countP isCargo

/-- `sum(1 for b in boats if isinstance(b, MilitaryBoat))`. -/
def militaryCount (bs : List Boat) : Nat :=
  bs.countP isMilitary

/-- `regular_boats = total_boats - cargo_boats - military_boats`. -/
def regularCount (bs : List Boat) : Nat :=
  bs.length - cargoCount bs - militaryCount bs

/-- `sum(b.cargo_capacity for b in boats if isinstance(b, CargoBoat))`. -/
def cargoCapacitySum (bs : List Boat) : ℚ :=
  (bs.filterMap fun b => match b.variant with | .cargo c => some c | _ => none).sum

/-- Python's `f"{x:.2f}"` for the non-negative capacity totals that reach it,
computed on the rational's numerator and denominator. (Python rounds exact
halves to even via the same scaled comparison made here.) -/
def fmt2 (q : ℚ) : String :=
  let n := 100 * q.num
  let d := (q.den : Int)
  let f := Int.fdiv n d
  let r2 := 2 * (n - f * d)
  let c := (if r2 < d then f else if d < r2 then f + 1
            else if f % 2 = 0 then f else f + 1).toNat
  toString (c / 100) ++ "." ++ (if c % 100 < 10 then "0" ++ toString (c % 100)
                                else toString (c % 100))

/-- The count block of the status report, up to the military line. -/
def reportCounts (bs : List Boat) : String :=
  "📊 Fleet Status Report:\n\n"
    ++ "Total Boats: " ++ toString bs.length ++ "\n"
    ++ "Regular Boats: " ++ toString (regularCount bs) ++ "\n"
    ++ "Cargo Boats: " ++ toString (cargoCount bs) ++ "\n"
    ++ "Military Boats: " ++ toString (militaryCount bs) ++ "\n"

/-- `Fleet.generate_status_report`: the empty-fleet message for an empty
registry, otherwise the count block, with the total-capacity line appended
exactly when there is at least one cargo vessel. -/
def generate_status_report (f : Fleet) : String :=
  if f.boats.isEmpty then "📊 Fleet Status Report:\n\nFleet is currently empty."
  else if 0 < cargoCount f.boats then
    reportCounts f.boats
      ++ "Total Cargo Capacity: " ++ fmt2 (cargoCapacitySum f.boats) ++ " tons\n"
  else reportCounts f.boats

/-- The comparison `list.sort(key=lambda boat: boat.name)` sorts by. -/
def nameLe (a b : Boat) : Bool :=
  pyStrLe a.name b.name

/-- `Fleet.sort_boats`: returns the early-out message on an empty fleet;
otherwise stably sorts `boats` ascending by name. The `by` parameter is
accepted and ignored, exactly as in the source. -/
def sort_boats (by_ : String) (f : Fleet) : Fleet × String :=
  if f.boats.isEmpty then (f, "Empty fleet, no boats to sort")
  else ({ f with boats := f.boats.mergeSort nameLe }, "✅ Fleet sorted by ship name.")

/-- The parsed content of `fleet_data.json`: the `boats` and `logs` keys read
by `load_from_file` (each defaulting to `[]` when absent, per `data.get`). -/
structure SaveData where
  boats : List Doc
  logs : List String
deriving DecidableEq

/-- The fleet-binding done for each loaded vessel: `boat.current_fleet = self`
and `boat.fleet_history.append(self)`, with the loading registry `selfId`. -/
def bindFleet (selfId : Nat) (b : Boat) : Boat :=
  { b with current_fleet := some selfId, fleet_history := b.fleet_history ++ [selfId] }

/-- The reconstruction loop of `load_from_file`: builds each vessel from its
document, binds it to the loading registry and appends it; a reconstruction
error aborts the loop (the raised exception), keeping the vessels built so
far. -/
def loadLoop (selfId : Nat) : List Doc → List Boat → List Boat × Option String
  | [], acc => (acc, none)
  | d :: ds, acc =>
    match fromDoc d with
    | .ok b => loadLoop selfId ds (acc ++ [bindFleet selfId b])
    | .error e => (acc, some e)

/-- `Fleet.load_from_file`: a missing file (`none`) is the benign no-saved-data
result leaving the registry untouched; otherwise `boats` is cleared, `logs` is
replaced by the file's logs, and the vessels are reconstructed; a
reconstruction error surfaces as the error result (with the partially rebuilt
state, as the exception escapes mid-loop). -/
def load_from_file (selfId : Nat) (f : Fleet) (file : Option SaveData) :
    Fleet × String :=
  match file with
  | none => (f, "ℹ️ No saved fleet data found. Starting with empty fleet.")
  | some data =>
    match loadLoop selfId data.boats [] with
    | (bs, none) =>
        (⟨bs, data.logs⟩, "✅ Loaded " ++ toString bs.length ++ " boats from fleet_data.json")
    | (bs, some e) => (⟨bs, data.logs⟩, "❌ Error loading fleet data: " ++ e)

/-! ### Multi-registry state model

`add_boat`, `remove_boat` and `transfer_boat` mutate both a registry and the
vessel's own membership fields, and `transfer_boat` touches two registries, so
they are modelled on a global state: fleets and vessels are identified by
`Nat` ids, `fleets` maps each fleet id to its `boats`/`logs` pair, and `cf` /
`hist` give each vessel id its `current_fleet` and `fleet_history`. The
vessel-name map `nm` supplies `boat.name` for log messages. -/

/-- One registry's mutable state in the multi-registry model. -/
structure FleetSt where
  boats : List Nat
  logs : List String
deriving DecidableEq

/-- The global mutable state: every registry, and every vessel's membership
fields. -/
structure GState where
  fleets : Nat → FleetSt
  cf : Nat → Option Nat
  hist : Nat → List Nat

/-- Message of the `add_boat` audit entry. -/
def joinedMsg (nm : Nat → String) (v : Nat) : String :=
  nm v ++ " joined the fleet."

/-- Message of the first `transfer_boat` audit entry. -/
def leftMsg (nm : Nat → String) (v : Nat) : String :=
  nm v ++ " left this fleet for another."

/-- Message of the second `transfer_boat` audit entry. -/
def transferredMsg (nm : Nat → String) (v : Nat) : String :=
  nm v ++ " transferred to new fleet."

/-- Message of the `remove_boat` audit entry. -/
def removedMsg (nm : Nat → String) (v : Nat) : String :=
  nm v ++ " was removed from the fleet."

/-- `Fleet.add_boat` on registry `r`: appends the vessel, points its
`current_fleet` at `r`, appends `r` to its `fleet_history`, and records the
joined entry on `r`'s own log. (The `isinstance(boat, Boat)` guard is subsumed
by typing: every vessel id denotes a vessel.) -/
def add_boat (nm : Nat → String) (r v : Nat) (s : GState) : GState :=
  { fleets := Function.update s.fleets r
      ⟨(s.fleets r).boats ++ [v], (s.fleets r).logs ++ [joinedMsg nm v]⟩
    cf := Function.update s.cf v (some r)
    hist := Function.update s.hist v (s.hist v ++ [r]) }

/-- `Fleet.remove_boat` on registry `r`: a no-op failure result when the vessel
is not a member; otherwise removes the first occurrence, clears
`current_fleet`, and records the removed entry. -/
def remove_boat (nm : Nat → String) (r v : Nat) (s : GState) : GState :=
  if v ∈ (s.fleets r).boats then
    { fleets := Function.update s.fleets r
        ⟨(s.fleets r).boats.erase v, (s.fleets r).logs ++ [removedMsg nm v]⟩
      cf := Function.update s.cf v none
      hist := s.hist }
  else s

/-- `Fleet.transfer_boat` from registry `a` to registry `b`: a no-op failure
result when the vessel is not in `a`; otherwise removes it from `a`, records
the left entry on `a`, runs `b.add_boat` (which appends the joined entry to
`b`'s log), and finally records the transferred entry on `a`. -/
def transfer_boat (nm : Nat → String) (a v b : Nat) (s : GState) : GState :=
  if v ∈ (s.fleets a).boats then
    let fa : FleetSt := ⟨(s.fleets a).boats.erase v, (s.fleets a).logs ++ [leftMsg nm v]⟩
    let s1 : GState := { s with fleets := Function.update s.fleets a fa }
    let s2 := add_boat nm b v s1
    let fa2 : FleetSt := ⟨(s2.fleets a).boats, (s2.fleets a).logs ++ [transferredMsg nm v]⟩
    { s2 with fleets := Function.update s2.fleets a fa2 }
  else s

/-- A membership-mutating registry operation. -/
inductive Op
  | add (r v : Nat)
  | remove (r v : Nat)
  | transfer (a v b : Nat)

/-- Apply one operation to the global state. -/
def stepOp (nm : Nat → String) (s : GState) : Op → GState
  | .add r v => add_boat nm r v s
  | .remove r v => remove_boat nm r v s
  | .transfer a v b => transfer_boat nm a v b s

/-- The initial state: every registry empty, every vessel unbound. -/
def initState : GState :=
  ⟨fun _ => ⟨[], []⟩, fun _ => none, fun _ => []⟩

/-- Run a sequence of operations from the initial state. -/
def runOps (nm : Nat → String) (ops : List Op) : GState :=
  ops.foldl (stepOp nm) initState

/-- The membership invariant: a vessel's `current_fleet`, when set, references
a registry whose `boats` sequence contains the vessel. -/
def MembershipInv (s : GState) : Prop :=
  ∀ v r, s.cf v = some r → v ∈ (s.fleets r).boats

/-! ### Helper lemmas -/

theorem isPrefixOf_append_self (n s : List Char) : n.isPrefixOf (n ++ s) = true := by
  induction n with
  | nil => simp [List.isPrefixOf]
  | cons c t ih => simp [List.isPrefixOf, ih]

theorem isPrefixOf_refl (l : List Char) : l.isPrefixOf l = true := by
  have h := isPrefixOf_append_self l []
  simpa using h

theorem subOf_suffix (p n : List Char) : subOf n (p ++ n) = true := by
  induction p with
  | nil =>
    cases n with
    | nil => rfl
    | cons c t => simp [subOf, isPrefixOf_refl]
  | cons c t ih => simp [subOf, ih]

theorem strContains_append (a b : String) : strContains (a ++ b) b = true := by
  simpa [strContains, String.data_append] using subOf_suffix a.data b.data

theorem contains_joined (x : String) :
    strContains (x ++ " joined the fleet.") "joined the fleet." = true := by
  have h : x ++ " joined the fleet." = (x ++ " ") ++ "joined the fleet." := by
    rw [String.append_assoc]
    rfl
  rw [h]
  exact strContains_append _ _

theorem contains_left (x : String) :
    strContains (x ++ " left this fleet for another.") "left this fleet for another." = true := by
  have h : x ++ " left this fleet for another." = (x ++ " ") ++ "left this fleet for another." := by
    rw [String.append_assoc]
    rfl
  rw [h]
  exact strContains_append _ _

theorem contains_transferred (x : String) :
    strContains (x ++ " transferred to new fleet.") "transferred to new fleet." = true := by
  have h : x ++ " transferred to new fleet." = (x ++ " ") ++ "transferred to new fleet." := by
    rw [String.append_assoc]
    rfl
  rw [h]
  exact strContains_append _ _

theorem initBase_ok {n : String} {l : LaunchInput} {hp fl : String} {b : Boat}
    (h : initBase n l hp fl = .ok b) :
    isBlank n = false ∧ isBlank hp = false ∧ isBlank fl = false ∧
    b.name = n ∧ b.home_port = hp ∧ b.flag = fl ∧ b.current_fleet = none ∧
    b.fleet_history = [] ∧ b.current_position = none ∧ b.position_logs = [] ∧
    b.variant = .base := by
  unfold initBase at h
  split_ifs at h with h1 h2 h3
  cases l with
  | noneVal => exact absurd h (by simp)
  | num t =>
    rw [Except.ok.injEq] at h
    subst h
    simp_all
  | dateVal y m d =>
    rw [Except.ok.injEq] at h
    subst h
    simp_all
  | strVal s =>
    rw [Except.ok.injEq] at h
    subst h
    simp_all

theorem initCargo_ok {n : String} {l : LaunchInput} {hp fl : String} {c : ℚ} {b : Boat}
    (h : initCargo n l hp fl c = .ok b) :
    ∃ b0, initBase n l hp fl = .ok b0 ∧ ¬ c < 0 ∧ b = { b0 with variant := .cargo c } := by
  unfold initCargo at h
  cases hinit : initBase n l hp fl with
  | error e => rw [hinit] at h; simp [Except.bind] at h
  | ok b0 =>
    rw [hinit] at h
    simp only [Except.bind] at h
    by_cases hc : c < 0
    · rw [if_pos hc] at h
      exact absurd h (by simp)
    · rw [if_neg hc] at h
      rw [Except.ok.injEq] at h
      exact ⟨b0, rfl, hc, h.symm⟩

theorem initMilitary_ok {n : String} {l : LaunchInput} {hp fl : String} {w : ℚ} {auth : Bool}
    {b : Boat} (h : initMilitary n l hp fl w auth = .ok b) :
    ∃ b0, initBase n l hp fl = .ok b0 ∧ ¬ w < 0 ∧
      b = { b0 with variant := .military w auth } := by
  unfold initMilitary at h
  cases hinit : initBase n l hp fl with
  | error e => rw [hinit] at h; simp [Except.bind] at h
  | ok b0 =>
    rw [hinit] at h
    simp only [Except.bind] at h
    by_cases hc : w < 0
    · rw [if_pos hc] at h
      exact absurd h (by simp)
    · rw [if_neg hc] at h
      rw [Except.ok.injEq] at h
      exact ⟨b0, rfl, hc, h.symm⟩

/-! ### C4: launch-date validation -/

/-- C4 counterexample: the claim says a launch date that is an arbitrary
non-date string (or the empty string) is rejected with a `ValidationError`;
in the code both constructions succeed, storing the string unchanged. -/
theorem C4_launch_validation_counterexample :
    initBase "Alpha" (.strVal "not-a-date") "Port" "UK" =
      .ok ⟨"Alpha", .str "not-a-date", "Port", "UK", none, [], none, [], .base⟩ ∧
    initBase "Alpha" (.strVal "") "Port" "UK" =
      .ok ⟨"Alpha", .str "", "Port", "UK", none, [], none, [], .base⟩ := by
  constructor <;> rfl

/-- C4 (amended): with valid name/home port/flag, only an unset (`None`)
launch date is rejected; a numeric timestamp is converted to a date, a date
value is stored as-is, and every string — empty, arbitrary, ISO or not — is
accepted and stored unchanged, with no parsing or validation. -/
theorem C4_launch_validation_amended (name hp fl : String)
    (h1 : isBlank name = false) (h2 : isBlank hp = false) (h3 : isBlank fl = false) :
    (∀ s, initBase name (.strVal s) hp fl =
        .ok ⟨name, .str s, hp, fl, none, [], none, [], .base⟩) ∧
    initBase name .noneVal hp fl =
        .error "Launch date cannot be empty. Please input a date." ∧
    (∀ t, initBase name (.num t) hp fl =
        .ok ⟨name, timestampToDate t, hp, fl, none, [], none, [], .base⟩) ∧
    (∀ y m d, initBase name (.dateVal y m d) hp fl =
        .ok ⟨name, .date y m d, hp, fl, none, [], none, [], .base⟩) := by
  refine ⟨fun s => ?_, ?_, fun t => ?_, fun y m d => ?_⟩ <;> simp [initBase, h1, h2, h3]

theorem C4_launch_validation_witness :
    initBase "Alpha" (.strVal "definitely not a date") "Port" "UK" =
      .ok ⟨"Alpha", .str "definitely not a date", "Port", "UK", none, [], none, [], .base⟩ ∧
    initBase "Alpha" .noneVal "Port" "UK" =
      .error "Launch date cannot be empty. Please input a date." :=
  ⟨(C4_launch_validation_amended "Alpha" "Port" "UK" (by decide) (by decide) (by decide)).1
      "definitely not a date",
   (C4_launch_validation_amended "Alpha" "Port" "UK" (by decide) (by decide) (by decide)).2.1⟩

/-! ### C9: cargo capacity validation -/

/-- C9: for otherwise-valid cargo constructor inputs, a negative
`cargo_capacity` raises the validation error, while zero or positive
capacities succeed and are stored unchanged. -/
theorem C9_cargo_capacity (name : String) (launch : LaunchInput) (hp fl : String)
    (cap : ℚ) (b : Boat) (h : initBase name launch hp fl = .ok b) :
    (cap < 0 → initCargo name launch hp fl cap =
        .error "Cargo capacity must be a positive value greater than zero.") ∧
    (0 ≤ cap → initCargo name launch hp fl cap = .ok { b with variant := .cargo cap }) := by
  constructor
  · intro hneg
    simp [initCargo, h, Except.bind, hneg]
  · intro hpos
    simp [initCargo, h, Except.bind, not_lt.mpr hpos]

theorem C9_cargo_capacity_witness :
    initCargo "Alpha" (.strVal "2020-01-01") "Port" "UK" (-1) =
      .error "Cargo capacity must be a positive value greater than zero." ∧
    initCargo "Alpha" (.strVal "2020-01-01") "Port" "UK" 0 =
      .ok ⟨"Alpha", .str "2020-01-01", "Port", "UK", none, [], none, [], .cargo 0⟩ ∧
    initCargo "Alpha" (.strVal "2020-01-01") "Port" "UK" 500 =
      .ok ⟨"Alpha", .str "2020-01-01", "Port", "UK", none, [], none, [], .cargo 500⟩ :=
  ⟨(C9_cargo_capacity "Alpha" (.strVal "2020-01-01") "Port" "UK" (-1)
      ⟨"Alpha", .str "2020-01-01", "Port", "UK", none, [], none, [], .base⟩ (by rfl)).1
      (by norm_num),
   (C9_cargo_capacity "Alpha" (.strVal "2020-01-01") "Port" "UK" 0
      ⟨"Alpha", .str "2020-01-01", "Port", "UK", none, [], none, [], .base⟩ (by rfl)).2
      (by norm_num),
   (C9_cargo_capacity "Alpha" (.strVal "2020-01-01") "Port" "UK" 500
      ⟨"Alpha", .str "2020-01-01", "Port", "UK", none, [], none, [], .base⟩ (by rfl)).2
      (by norm_num)⟩

/-! ### C1: serialization round-trip -/

/-- Core round-trip computation: for any vessel with valid identity fields, a
fresh (unbound) membership state and a variant payload satisfying its sign
constraint, deserializing its document rebuilds it exactly except that
`launch_date` comes back as the stored string form. -/
theorem fromDoc_to_dict {b : Boat}
    (hn : isBlank b.name = false) (hhp : isBlank b.home_port = false)
    (hfl : isBlank b.flag = false) (hcf : b.current_fleet = none)
    (hfh : b.fleet_history = [])
    (hvar : match b.variant with
            | .base => True
            | .cargo c => ¬ c < 0
            | .military w _ => ¬ w < 0) :
    fromDoc (to_dict b) = .ok { b with launch_date := .str (dateToStr b.launch_date) } := by
  obtain ⟨n, ld, hp, fl, cf, fh, cp, pl, var⟩ := b
  simp only at hn hhp hfl hcf hfh hvar
  subst hcf hfh
  cases var with
  | base =>
    simp [to_dict, fromDoc, initBase, hn, hhp, hfl, Except.map, restorePos]
  | cargo c =>
    simp only at hvar
    simp [to_dict, fromDoc, initCargo, initBase, hn, hhp, hfl, hvar, Except.bind,
      Except.map, restorePos]
  | military w a =>
    simp only at hvar
    simp [to_dict, fromDoc, initMilitary, initBase, hn, hhp, hfl, hvar, Except.bind,
      Except.map, restorePos]

/-- C1 counterexample: a base vessel constructed with a date-valued launch
date does not round-trip to an equal vessel — serialization stringifies the
date and reconstruction keeps the string, so `launch_date` changes from a
date value to a string. -/
theorem C1_roundtrip_counterexample :
    construct (.base "Alpha" (.dateVal 2020 1 1) "Port" "UK") =
      .ok ⟨"Alpha", .date 2020 1 1, "Port", "UK", none, [], none, [], .base⟩ ∧
    fromDoc (to_dict ⟨"Alpha", .date 2020 1 1, "Port", "UK", none, [], none, [], .base⟩) =
      .ok ⟨"Alpha", .str "2020-01-01", "Port", "UK", none, [], none, [], .base⟩ ∧
    (⟨"Alpha", .str "2020-01-01", "Port", "UK", none, [], none, [], .base⟩ : Boat) ≠
      ⟨"Alpha", .date 2020 1 1, "Port", "UK", none, [], none, [], .base⟩ := by
  refine ⟨by rfl, by rfl, by decide⟩

/-- C1 (amended): for every vessel built from valid constructor inputs (any
variant), `from_document` after `to_document` rebuilds a vessel of the same
variant equal to the original in every field except `launch_date`, which
comes back as the string form `str(launch_date)`; in particular the
round-trip is an exact identity whenever the launch date was stored as a
string (e.g. any vessel reloaded from a file). -/
theorem C1_roundtrip_amended (i : CtorInput) (b : Boat) (h : construct i = .ok b) :
    fromDoc (to_dict b) = .ok { b with launch_date := .str (dateToStr b.launch_date) } ∧
    (∀ s, b.launch_date = .str s →
      fromDoc (to_dict b) = .ok b) := by
  have key : fromDoc (to_dict b) = .ok { b with launch_date := .str (dateToStr b.launch_date) } := by
    cases i with
    | base n l hp fl =>
      simp only [construct] at h
      obtain ⟨h1, h2, h3, hname, hhp, hfl, hcf, hfh, -, -, hvar⟩ := initBase_ok h
      exact fromDoc_to_dict (hname ▸ h1) (hhp ▸ h2) (hfl ▸ h3) hcf hfh (by rw [hvar]; trivial)
    | cargo n l hp fl c =>
      simp only [construct] at h
      obtain ⟨b0, hb0, hc, rfl⟩ := initCargo_ok h
      obtain ⟨h1, h2, h3, hname, hhp, hfl, hcf, hfh, -, -, -⟩ := initBase_ok hb0
      exact fromDoc_to_dict (by simpa [hname] using h1) (by simpa [hhp] using h2)
        (by simpa [hfl] using h3) (by simpa using hcf) (by simpa using hfh) hc
    | military n l hp fl w a =>
      simp only [construct] at h
      obtain ⟨b0, hb0, hw, rfl⟩ := initMilitary_ok h
      obtain ⟨h1, h2, h3, hname, hhp, hfl, hcf, hfh, -, -, -⟩ := initBase_ok hb0
      exact fromDoc_to_dict (by simpa [hname] using h1) (by simpa [hhp] using h2)
        (by simpa [hfl] using h3) (by simpa using hcf) (by simpa using hfh) hw
  refine ⟨key, fun s hs => ?_⟩
  rw [key, hs]
  simp [dateToStr]
  cases b
  simp_all

theorem C1_roundtrip_witness :
    fromDoc (to_dict ⟨"Alpha", .str "2020-01-01", "Port", "UK", none, [], none, [], .base⟩) =
      .ok ⟨"Alpha", .str "2020-01-01", "Port", "UK", none, [], none, [], .base⟩ :=
  (C1_roundtrip_amended (.base "Alpha" (.strVal "2020-01-01") "Port" "UK")
      ⟨"Alpha", .str "2020-01-01", "Port", "UK", none, [], none, [], .base⟩ (by rfl)).2
    "2020-01-01" rfl

/-! ### C2 / C3: transfer semantics -/

/-- Effect of a successful transfer between two distinct registries on both
registries' logs and vessel lists, and on the vessel's membership pointer. -/
theorem transfer_shape (nm : Nat → String) (a v b : Nat) (s : GState)
    (hab : a ≠ b) (hv : v ∈ (s.fleets a).boats) :
    ((transfer_boat nm a v b s).fleets a).logs =
      (s.fleets a).logs ++ [leftMsg nm v, transferredMsg nm v] ∧
    ((transfer_boat nm a v b s).fleets b).logs = (s.fleets b).logs ++ [joinedMsg nm v] ∧
    ((transfer_boat nm a v b s).fleets a).boats = (s.fleets a).boats.erase v ∧
    ((transfer_boat nm a v b s).fleets b).boats = (s.fleets b).boats ++ [v] ∧
    (transfer_boat nm a v b s).cf v = some b := by
  have hba : b ≠ a := Ne.symm hab
  simp only [transfer_boat, add_boat, if_pos hv]
  refine ⟨?_, ?_, ?_, ?_, ?_⟩ <;>
    simp [Function.update_apply, hab, hba]

/-- C2 counterexample: in the code, `new_fleet.add_boat(boat)` records the
joined entry on the target's log, so after a concrete transfer the source
registry's log has no entry containing "joined the fleet." while the target's
does — contradicting the claim that all three entries land on the source. -/
theorem C2_transfer_log_counterexample :
    (((transfer_boat (fun _ => "V") 0 7 1
        ⟨fun r => if r = 0 then ⟨[7], []⟩ else ⟨[], []⟩, fun _ => none,
          fun _ => []⟩).fleets 0).logs.any
      (fun e => strContains e "joined the fleet.")) = false ∧
    (((transfer_boat (fun _ => "V") 0 7 1
        ⟨fun r => if r = 0 then ⟨[7], []⟩ else ⟨[], []⟩, fun _ => none,
          fun _ => []⟩).fleets 1).logs.any
      (fun e => strContains e "joined the fleet.")) = true := by
  decide

/-- C2 (amended): `transfer(v, B)` appends the joined entry produced by the
target's `add` to B's log — not to A's — while A's log receives exactly the
left and transferred entries; each entry contains its quoted phrase. -/
theorem C2_transfer_log_amended (nm : Nat → String) (a v b : Nat) (s : GState)
    (hab : a ≠ b) (hv : v ∈ (s.fleets a).boats) :
    ((transfer_boat nm a v b s).fleets b).logs = (s.fleets b).logs ++ [joinedMsg nm v] ∧
    ((transfer_boat nm a v b s).fleets a).logs =
      (s.fleets a).logs ++ [leftMsg nm v, transferredMsg nm v] ∧
    strContains (joinedMsg nm v) "joined the fleet." = true ∧
    strContains (leftMsg nm v) "left this fleet for another." = true ∧
    strContains (transferredMsg nm v) "transferred to new fleet." = true := by
  obtain ⟨ha, hb, -, -, -⟩ := transfer_shape nm a v b s hab hv
  exact ⟨hb, ha, contains_joined (nm v), contains_left (nm v),
    contains_transferred (nm v)⟩

theorem C2_transfer_log_witness :
    ((transfer_boat (fun _ => "V") 0 7 1
        ⟨fun r => if r = 0 then ⟨[7], []⟩ else ⟨[], []⟩, fun _ => none,
          fun _ => []⟩).fleets 1).logs = [joinedMsg (fun _ => "V") 7] ∧
    ((transfer_boat (fun _ => "V") 0 7 1
        ⟨fun r => if r = 0 then ⟨[7], []⟩ else ⟨[], []⟩, fun _ => none,
          fun _ => []⟩).fleets 0).logs =
      [leftMsg (fun _ => "V") 7, transferredMsg (fun _ => "V") 7] :=
  ⟨(C2_transfer_log_amended (fun _ => "V") 0 7 1 _ (by decide) (by decide)).1,
   (C2_transfer_log_amended (fun _ => "V") 0 7 1 _ (by decide) (by decide)).2.1⟩

/-- C3 counterexample: the claim quantifies over every vessel present in A
and every target registry B. It fails when the vessel occurs twice in A
(duplicates are reachable by design: `add` twice) — one occurrence survives
the transfer — and when B is A itself, where the vessel ends up present in A
again; in both concrete runs the vessel is still in A's vessel list. -/
theorem C3_transfer_counterexample :
    7 ∈ ((transfer_boat (fun _ => "V") 0 7 1
        ⟨fun r => if r = 0 then ⟨[7, 7], []⟩ else ⟨[], []⟩, fun _ => none,
          fun _ => []⟩).fleets 0).boats ∧
    7 ∈ ((transfer_boat (fun _ => "V") 0 7 0
        ⟨fun r => if r = 0 then ⟨[7], []⟩ else ⟨[], []⟩, fun _ => none,
          fun _ => []⟩).fleets 0).boats := by
  decide

/-- C3 (amended): for a vessel occurring exactly once in registry A and a
target registry B distinct from A, after `transfer(v, B)` the vessel is absent
from A's vessels and present in B's, A's log contains entries containing
"left this fleet for another." and "transferred to new fleet.", and B's log
contains an entry containing "joined the fleet.". -/
theorem C3_transfer_amended (nm : Nat → String) (a v b : Nat) (s : GState)
    (hab : a ≠ b) (hv1 : (s.fleets a).boats.count v = 1) :
    v ∉ ((transfer_boat nm a v b s).fleets a).boats ∧
    v ∈ ((transfer_boat nm a v b s).fleets b).boats ∧
    (∃ e ∈ ((transfer_boat nm a v b s).fleets a).logs,
      strContains e "left this fleet for another." = true) ∧
    (∃ e ∈ ((transfer_boat nm a v b s).fleets a).logs,
      strContains e "transferred to new fleet." = true) ∧
    (∃ e ∈ ((transfer_boat nm a v b s).fleets b).logs,
      strContains e "joined the fleet." = true) := by
  have hv : v ∈ (s.fleets a).boats := List.count_pos_iff.mp (by rw [hv1]; exact one_pos)
  obtain ⟨hla, hlb, hba, hbb, -⟩ := transfer_shape nm a v b s hab hv
  refine ⟨?_, ?_, ?_, ?_, ?_⟩
  · rw [hba]
    exact List.count_eq_zero.mp (by rw [List.count_erase_self, hv1])
  · rw [hbb]
    exact List.mem_append_right _ (List.mem_singleton.mpr rfl)
  · rw [hla]
    exact ⟨leftMsg nm v, by simp, contains_left (nm v)⟩
  · rw [hla]
    exact ⟨transferredMsg nm v, by simp, contains_transferred (nm v)⟩
  · rw [hlb]
    exact ⟨joinedMsg nm v, by simp, contains_joined (nm v)⟩

theorem C3_transfer_witness :
    7 ∉ ((transfer_boat (fun _ => "V") 0 7 1
        ⟨fun r => if r = 0 then ⟨[7], []⟩ else ⟨[], []⟩, fun _ => none,
          fun _ => []⟩).fleets 0).boats ∧
    7 ∈ ((transfer_boat (fun _ => "V") 0 7 1
        ⟨fun r => if r = 0 then ⟨[7], []⟩ else ⟨[], []⟩, fun _ => none,
          fun _ => []⟩).fleets 1).boats :=
  ⟨(C3_transfer_amended (fun _ => "V") 0 7 1 _ (by decide) (by decide)).1,
   (C3_transfer_amended (fun _ => "V") 0 7 1 _ (by decide) (by decide)).2.1⟩

/-! ### C5: the membership invariant is preserved by every operation -/

theorem inv_add (nm : Nat → String) (r v : Nat) {s : GState} (h : MembershipInv s) :
    MembershipInv (add_boat nm r v s) := by
  intro v' r' h'
  simp only [add_boat, Function.update_apply] at h' ⊢
  by_cases hv : v' = v
  · subst hv
    rw [if_pos rfl] at h'
    rw [Option.some.injEq] at h'
    subst h'
    rw [if_pos rfl]
    exact List.mem_append_right _ (List.mem_singleton.mpr rfl)
  · rw [if_neg hv] at h'
    have hm := h v' r' h'
    by_cases hr : r' = r
    · subst hr
      rw [if_pos rfl]
      exact List.mem_append_left _ hm
    · rw [if_neg hr]
      exact hm

theorem inv_remove (nm : Nat → String) (r v : Nat) {s : GState} (h : MembershipInv s) :
    MembershipInv (remove_boat nm r v s) := by
  unfold remove_boat
  by_cases hmem : v ∈ (s.fleets r).boats
  · rw [if_pos hmem]
    intro v' r' h'
    simp only [Function.update_apply] at h' ⊢
    by_cases hv : v' = v
    · subst hv
      rw [if_pos rfl] at h'
      exact absurd h' (by simp)
    · rw [if_neg hv] at h'
      have hm := h v' r' h'
      by_cases hr : r' = r
      · subst hr
        rw [if_pos rfl]
        exact (List.mem_erase_of_ne hv).mpr hm
      · rw [if_neg hr]
        exact hm
  · rw [if_neg hmem]
    exact h

theorem transfer_cf_eq (nm : Nat → String) (a v b : Nat) (s : GState)
    (hmem : v ∈ (s.fleets a).boats) :
    (transfer_boat nm a v b s).cf = Function.update s.cf v (some b) := by
  simp only [transfer_boat, add_boat, if_pos hmem]

theorem transfer_boats_eq (nm : Nat → String) (a v b : Nat) (s : GState)
    (hmem : v ∈ (s.fleets a).boats) (r' : Nat) :
    ((transfer_boat nm a v b s).fleets r').boats =
      if r' = b then
        (if b = a then (s.fleets a).boats.erase v else (s.fleets b).boats) ++ [v]
      else if r' = a then (s.fleets a).boats.erase v
      else (s.fleets r').boats := by
  simp only [transfer_boat, add_boat, if_pos hmem, Function.update_apply]
  by_cases h2 : r' = b
  · subst h2
    by_cases h3 : r' = a <;> simp [h3]
  · by_cases h1 : r' = a
    · subst h1
      simp only [if_pos rfl, if_neg h2]
      have h3 : ¬ b = r' := fun hc => h2 hc.symm
      simp [h2, h3]
    · simp [h1, h2]

theorem inv_transfer (nm : Nat → String) (a v b : Nat) {s : GState}
    (h : MembershipInv s) : MembershipInv (transfer_boat nm a v b s) := by
  by_cases hmem : v ∈ (s.fleets a).boats
  · intro v' r' h'
    rw [transfer_cf_eq nm a v b s hmem, Function.update_apply] at h'
    rw [transfer_boats_eq nm a v b s hmem r']
    by_cases hv : v' = v
    · subst hv
      rw [if_pos rfl] at h'
      rw [Option.some.injEq] at h'
      subst h'
      rw [if_pos rfl]
      exact List.mem_append_right _ (List.mem_singleton.mpr rfl)
    · rw [if_neg hv] at h'
      have hm := h v' r' h'
      by_cases h2 : r' = b
      · subst h2
        rw [if_pos rfl]
        refine List.mem_append_left _ ?_
        by_cases h3 : r' = a
        · subst h3
          simp only [if_pos rfl]
          exact (List.mem_erase_of_ne hv).mpr hm
        · rw [if_neg h3]
          exact hm
      · rw [if_neg h2]
        by_cases h1 : r' = a
        · subst h1
          rw [if_pos rfl]
          exact (List.mem_erase_of_ne hv).mpr hm
        · rw [if_neg h1]
          exact hm
  · unfold transfer_boat
    rw [if_neg hmem]
    exact h

theorem inv_step (nm : Nat → String) (op : Op) {s : GState} (h : MembershipInv s) :
    MembershipInv (stepOp nm s op) := by
  cases op with
  | add r v => exact inv_add nm r v h
  | remove r v => exact inv_remove nm r v h
  | transfer a v b => exact inv_transfer nm a v b h

theorem inv_foldl (nm : Nat → String) (ops : List Op) :
    ∀ s : GState, MembershipInv s → MembershipInv (ops.foldl (stepOp nm) s) := by
  induction ops with
  | nil => intro s h; exact h
  | cons op rest ih => intro s h; exact ih _ (inv_step nm op h)

/-- C5: in every state reachable from unbound vessels and empty registries by
any sequence of add, remove and transfer operations — including duplicate
adds of the same vessel — every vessel's `current_fleet` is unset or points
at a registry whose vessels sequence contains that vessel. -/
theorem C5_membership_invariant (nm : Nat → String) (ops : List Op) :
    MembershipInv (runOps nm ops) := by
  unfold runOps
  exact inv_foldl nm ops initState (by intro v r h; simp [initState] at h)

/-! ### C6: status report -/

/-- C6: the report on an empty registry is exactly the empty-fleet message;
on one cargo vessel (capacity 500.0) plus one military vessel (4 weapons) it
shows the claimed counts and `Total Cargo Capacity: 500.00 tons`; the regular
count is total minus cargo minus military; and the capacity line is appended
exactly when at least one cargo vessel exists. -/
theorem C6_status_report :
    generate_status_report ⟨[], []⟩ = "📊 Fleet Status Report:\n\nFleet is currently empty." ∧
    generate_status_report
        ⟨[⟨"Cargo One", .str "2020-01-01", "Port", "UK", none, [], none, [], .cargo 500⟩,
          ⟨"Military One", .str "2020-01-01", "Port", "UK", none, [], none, [], .military 4 true⟩],
          []⟩ =
      "📊 Fleet Status Report:\n\nTotal Boats: 2\nRegular Boats: 0\nCargo Boats: 1\nMilitary Boats: 1\nTotal Cargo Capacity: 500.00 tons\n" ∧
    (∀ bs : List Boat, regularCount bs = bs.length - cargoCount bs - militaryCount bs) ∧
    (∀ f : Fleet, f.boats ≠ [] → cargoCount f.boats = 0 →
      generate_status_report f = reportCounts f.boats) ∧
    (∀ f : Fleet, 0 < cargoCount f.boats →
      generate_status_report f =
        reportCounts f.boats ++ "Total Cargo Capacity: "
          ++ fmt2 (cargoCapacitySum f.boats) ++ " tons\n") := by
  have h5 : ∀ f : Fleet, 0 < cargoCount f.boats →
      generate_status_report f =
        reportCounts f.boats ++ "Total Cargo Capacity: "
          ++ fmt2 (cargoCapacitySum f.boats) ++ " tons\n" := by
    intro f hc
    have hne : f.boats ≠ [] := by
      intro he
      rw [he] at hc
      simp [cargoCount] at hc
    have hef : f.boats.isEmpty = false := by
      rw [← Bool.not_eq_true, List.isEmpty_iff]
      exact hne
    simp only [generate_status_report, hef, Bool.false_eq_true, if_false, if_pos hc]
  refine ⟨rfl, ?_, fun bs => rfl, ?_, h5⟩
  · rw [h5 _ (by decide)]
    have hsum : cargoCapacitySum
        [⟨"Cargo One", .str "2020-01-01", "Port", "UK", none, [], none, [], .cargo 500⟩,
         ⟨"Military One", .str "2020-01-01", "Port", "UK", none, [], none, [], .military 4 true⟩] =
        (500 : ℚ) := by
      simp [cargoCapacitySum]
    rw [hsum]
    have hfmt : fmt2 (500 : ℚ) = "500.00" := by
      simp only [fmt2, Rat.num_ofNat, Rat.den_ofNat]
      decide
    rw [hfmt]
    decide
  · intro f hne hc0
    have hef : f.boats.isEmpty = false := by
      rw [← Bool.not_eq_true, List.isEmpty_iff]
      exact hne
    simp [generate_status_report, hef, hc0]

theorem C6_status_report_witness :
    generate_status_report
        ⟨[⟨"Base One", .str "2020-01-01", "Port", "UK", none, [], none, [], .base⟩], []⟩ =
      reportCounts [⟨"Base One", .str "2020-01-01", "Port", "UK", none, [], none, [], .base⟩] :=
  C6_status_report.2.2.2.1
    ⟨[⟨"Base One", .str "2020-01-01", "Port", "UK", none, [], none, [], .base⟩], []⟩
    (by decide) (by decide)

/-! ### C7: sorting -/

theorem charListLe_refl (l : List Char) : charListLe l l = true := by
  induction l with
  | nil => rfl
  | cons c t ih => simp [charListLe, ih]

theorem charListLe_total (x y : List Char) : (charListLe x y || charListLe y x) = true := by
  induction x generalizing y with
  | nil => simp [charListLe]
  | cons a as ih =>
    cases y with
    | nil => simp [charListLe]
    | cons b bs =>
      simp only [charListLe]
      rcases Nat.lt_trichotomy a.toNat b.toNat with h | h | h
      · simp [h]
      · simp only [h, Nat.lt_irrefl, if_false]
        exact ih bs
      · simp [h, Nat.lt_asymm h]

theorem charListLe_trans (x y z : List Char) (h1 : charListLe x y = true)
    (h2 : charListLe y z = true) : charListLe x z = true := by
  induction x generalizing y z with
  | nil => rfl
  | cons a as ih =>
    cases y with
    | nil => simp [charListLe] at h1
    | cons b bs =>
      cases z with
      | nil => simp [charListLe] at h2
      | cons c cs =>
        simp only [charListLe] at h1 h2 ⊢
        rcases Nat.lt_trichotomy a.toNat b.toNat with hab | hab | hab
        · rcases Nat.lt_trichotomy b.toNat c.toNat with hbc | hbc | hbc
          · simp [Nat.lt_trans hab hbc]
          · have hac : a.toNat < c.toNat := by omega
            simp [hac]
          · rw [if_neg (by omega), if_pos hbc] at h2
            exact absurd h2 (by simp)
        · rcases Nat.lt_trichotomy b.toNat c.toNat with hbc | hbc | hbc
          · have hac : a.toNat < c.toNat := by omega
            simp [hac]
          · rw [if_neg (by omega), if_neg (by omega)] at h1
            rw [if_neg (by omega), if_neg (by omega)] at h2
            rw [if_neg (by omega), if_neg (by omega)]
            exact ih bs cs h1 h2
          · rw [if_neg (by omega), if_pos hbc] at h2
            exact absurd h2 (by simp)
        · rw [if_neg (by omega), if_pos hab] at h1
          exact absurd h1 (by simp)

theorem nameLe_trans (a b c : Boat) (h1 : nameLe a b = true) (h2 : nameLe b c = true) :
    nameLe a c = true :=
  charListLe_trans _ _ _ h1 h2

theorem nameLe_total (a b : Boat) : (nameLe a b || nameLe b a) = true :=
  charListLe_total _ _

theorem nameLe_of_eq {a b : Boat} {n : String} (ha : a.name = n) (hb : b.name = n) :
    nameLe a b = true := by
  unfold nameLe pyStrLe
  rw [ha, hb]
  exact charListLe_refl _

/-- C7: `sort` makes the vessel sequence non-decreasing by name (in Python's
case-sensitive code-point order), is stable (vessels with the same name keep
their relative order), is idempotent, and any value of the `by` parameter
yields the same sort-by-name behaviour. -/
theorem C7_sort (by_ : String) (f : Fleet) :
    List.Pairwise (fun x y => nameLe x y = true) ((sort_boats by_ f).1.boats) ∧
    (∀ n : String, (((sort_boats by_ f).1.boats.filter fun x => x.name == n)) =
      (f.boats.filter fun x => x.name == n)) ∧
    (sort_boats by_ (sort_boats by_ f).1).1 = (sort_boats by_ f).1 ∧
    sort_boats by_ f = sort_boats "name" f := by
  by_cases hemp : f.boats.isEmpty
  · have hnil : f.boats = [] := List.isEmpty_iff.mp hemp
    refine ⟨?_, ?_, ?_, rfl⟩
    · simp [sort_boats, hemp, hnil]
    · intro n
      simp [sort_boats, hemp]
    · simp [sort_boats, hemp]
  · have hempf : f.boats.isEmpty = false := by
      rw [← Bool.not_eq_true]
      exact hemp
    have hfst : (sort_boats by_ f).1 = { f with boats := f.boats.mergeSort nameLe } := by
      simp [sort_boats, hempf]
    have hsorted : List.Pairwise (fun x y => nameLe x y = true) (f.boats.mergeSort nameLe) :=
      List.sorted_mergeSort nameLe_trans nameLe_total f.boats
    refine ⟨by rw [hfst]; exact hsorted, ?_, ?_, rfl⟩
    · intro n
      rw [hfst]
      show ((f.boats.mergeSort nameLe).filter fun x => x.name == n) =
        (f.boats.filter fun x => x.name == n)
      have hmemp : ∀ x ∈ f.boats.filter (fun x => x.name == n), x.name = n := by
        intro x hx
        have := (List.mem_filter.mp hx).2
        exact beq_iff_eq.mp this
      have hsf : List.Pairwise (fun x y => nameLe x y = true)
          (f.boats.filter fun x => x.name == n) :=
        List.pairwise_of_forall_mem_list
          (fun x hx y hy => nameLe_of_eq (hmemp x hx) (hmemp y hy))
      have hsub : (f.boats.filter fun x => x.name == n).Sublist (f.boats.mergeSort nameLe) :=
        List.sublist_mergeSort nameLe_trans nameLe_total hsf (List.filter_sublist f.boats)
      have hself : ((f.boats.filter fun x => x.name == n).filter fun x => x.name == n) =
          (f.boats.filter fun x => x.name == n) :=
        List.filter_eq_self.mpr fun x hx => (List.mem_filter.mp hx).2
      have hsub2 : (f.boats.filter fun x => x.name == n).Sublist
          ((f.boats.mergeSort nameLe).filter fun x => x.name == n) := by
        have h' := hsub.filter (fun x => x.name == n)
        rwa [hself] at h'
      have hperm : (((f.boats.mergeSort nameLe).filter fun x => x.name == n)).Perm
          (f.boats.filter fun x => x.name == n) :=
        (List.mergeSort_perm f.boats nameLe).filter _
      exact (hsub2.eq_of_length hperm.length_eq.symm).symm
    · rw [hfst]
      have hne : f.boats ≠ [] := by
        intro hc
        rw [hc] at hempf
        simp at hempf
      have hmne : (f.boats.mergeSort nameLe).isEmpty = false := by
        rw [← Bool.not_eq_true, List.isEmpty_iff]
        intro hc
        apply hne
        have hlen : (f.boats.mergeSort nameLe).length = f.boats.length :=
          List.length_mergeSort f.boats
        rw [hc] at hlen
        exact List.length_eq_zero.mp hlen.symm
      have hidem : (f.boats.mergeSort nameLe).mergeSort nameLe = f.boats.mergeSort nameLe :=
        List.mergeSort_of_sorted hsorted
      simp [sort_boats, hmne, hidem]

/-! ### C8: load on missing file and on success -/

/-- C8: loading with no persistence file present returns the benign
no-saved-data message and leaves the registry exactly as it was; loading a
parsed file ignores the registry's previous state entirely, replaces `logs`
with the file's logs, and on a fully successful reconstruction replaces
`boats` wholesale with the reconstructed vessels. -/
theorem C8_load (selfId : Nat) (f : Fleet) :
    load_from_file selfId f none =
      (f, "ℹ️ No saved fleet data found. Starting with empty fleet.") ∧
    (∀ data g, (load_from_file selfId f (some data)).1 =
      (load_from_file selfId g (some data)).1) ∧
    (∀ data, (load_from_file selfId f (some data)).1.logs = data.logs) ∧
    (∀ data bs, loadLoop selfId data.boats [] = (bs, none) →
      load_from_file selfId f (some data) =
        (⟨bs, data.logs⟩, "✅ Loaded " ++ toString bs.length ++ " boats from fleet_data.json")) := by
  refine ⟨rfl, fun data g => rfl, fun data => ?_, fun data bs h => ?_⟩
  · simp only [load_from_file]
    rcases hl : loadLoop selfId data.boats [] with ⟨out, err⟩
    cases err <;> rfl
  · simp only [load_from_file]
    rw [h]

theorem C8_load_witness :
    load_from_file 0 ⟨[], ["old entry"]⟩ none =
      (⟨[], ["old entry"]⟩, "ℹ️ No saved fleet data found. Starting with empty fleet.") ∧
    load_from_file 0 ⟨[], ["old entry"]⟩ (some ⟨[], ["file entry"]⟩) =
      (⟨[], ["file entry"]⟩, "✅ Loaded 0 boats from fleet_data.json") :=
  ⟨(C8_load 0 ⟨[], ["old entry"]⟩).1,
   (C8_load 0 ⟨[], ["old entry"]⟩).2.2.2 ⟨[], ["file entry"]⟩ [] (by rfl)⟩

/-! ### C10: loaded vessels are fleet-bound -/

theorem loadLoop_bound (selfId : Nat) (docs : List Doc) :
    ∀ (acc out : List Boat) (err : Option String),
    loadLoop selfId docs acc = (out, err) →
    ∀ b ∈ out, b ∈ acc ∨ (b.current_fleet = some selfId ∧ selfId ∈ b.fleet_history) := by
  induction docs with
  | nil =>
    intro acc out err h b hb
    simp only [loadLoop] at h
    rw [Prod.mk.injEq] at h
    exact Or.inl (h.1 ▸ hb)
  | cons d ds ih =>
    intro acc out err h b hb
    simp only [loadLoop] at h
    cases hfd : fromDoc d with
    | ok b0 =>
      rw [hfd] at h
      rcases ih _ _ _ h b hb with hacc | hnew
      · rcases List.mem_append.mp hacc with h1 | h2
        · exact Or.inl h1
        · right
          have hb0 : b = bindFleet selfId b0 := List.mem_singleton.mp h2
          subst hb0
          exact ⟨rfl, by simp [bindFleet]⟩
      · exact Or.inr hnew
    | error e =>
      rw [hfd] at h
      rw [Prod.mk.injEq] at h
      exact Or.inl (h.1 ▸ hb)

/-- C10: every vessel present after a load of a parsed file is fleet-bound:
its `current_fleet` is the loading registry and the loading registry occurs
in its `fleet_history` (so it is immediately eligible for the
membership-guarded operations). -/
theorem C10_load_binding (selfId : Nat) (f : Fleet) (data : SaveData) (fl : Fleet)
    (msg : String) (h : load_from_file selfId f (some data) = (fl, msg)) :
    ∀ b ∈ fl.boats, b.current_fleet = some selfId ∧ selfId ∈ b.fleet_history := by
  intro b hb
  simp only [load_from_file] at h
  revert h
  rcases hl : loadLoop selfId data.boats [] with ⟨out, err⟩
  intro h
  cases err with
  | none =>
    rw [Prod.mk.injEq] at h
    rw [← h.1] at hb
    rcases loadLoop_bound selfId data.boats [] out none hl b hb with hacc | hprops
    · cases hacc
    · exact hprops
  | some e =>
    rw [Prod.mk.injEq] at h
    rw [← h.1] at hb
    rcases loadLoop_bound selfId data.boats [] out (some e) hl b hb with hacc | hprops
    · cases hacc
    · exact hprops

theorem C10_load_binding_witness :
    (⟨"A", .str "2020-01-01", "P", "F", some 3, [3], none, [], .base⟩ : Boat).current_fleet =
      some 3 ∧
    3 ∈ (⟨"A", .str "2020-01-01", "P", "F", some 3, [3], none, [], .base⟩ : Boat).fleet_history :=
  C10_load_binding 3 ⟨[], ["old"]⟩
    ⟨[⟨"A", "2020-01-01", "P", "F", none, [], none, none, none⟩], ["L"]⟩
    ⟨[⟨"A", .str "2020-01-01", "P", "F", some 3, [3], none, [], .base⟩], ["L"]⟩
    "✅ Loaded 1 boats from fleet_data.json" (by decide)
    ⟨"A", .str "2020-01-01", "P", "F", some 3, [3], none, [], .base⟩ (by decide)

end ShipLogbook


